import Mathlib

/-!
Verification of the eRPC session-management retry module
(`src/rpc_impl/rpc_sm_retry.cc`), of the nested-request test
(`tests/test_req_in_req_func.cc`), and of the timing-wheel rate test
(`tests/util_tests/timing_wheel_test.cc`), against the repository's
natural-language specification.

The C++ code is shallowly embedded: machine integers become `Nat` (with
explicit `% 2 ^ w` where wrap-around matters), stateful methods become
pure functions returning the updated state together with the list of
management datagrams they emit, and the endpoint's `in_flight_vec` is a
`List`.
-/

namespace ERpc

/-- Endpoint descriptor carried in management packets: hostname,
transport type, endpoint id and session number (spec section 6 wire
format). Transport-specific material is opaque and omitted. -/
structure EndpointDescriptor where
  hostname : String
  transport_type : Nat
  endpoint_id : Nat
  session_number : Nat
deriving DecidableEq

/-- `SessionState` from the session state machine. -/
inductive SessionState where
  | kConnectInProgress
  | kConnected
  | kDisconnectWaitForConnect
  | kDisconnectInProgress
  | kDisconnected
deriving DecidableEq

/-- `Session::Role`. -/
inductive Role where
  | kClient
  | kServer
deriving DecidableEq

/-- The fields of `Session` that the retry module reads: role, state and
the two endpoint descriptors. -/
structure Session where
  role : Role
  state : SessionState
  client : EndpointDescriptor
  server : EndpointDescriptor
deriving DecidableEq

/-- `SessionMgmtPktType`. -/
inductive SessionMgmtPktType where
  | kConnectReq
  | kConnectReply
  | kDisconnectReq
  | kDisconnectReply
deriving DecidableEq

/-- `SessionMgmtPkt`: packet kind plus client and server descriptors
(the status byte only matters on replies and is not read by the retry
module). -/
structure SessionMgmtPkt where
  pkt_kind : SessionMgmtPktType
  client : EndpointDescriptor
  server : EndpointDescriptor
deriving DecidableEq

/-- A management datagram on the wire: destination hostname and packet. -/
abbrev MgmtSend := String × SessionMgmtPkt

/-- `in_flight_req_t`: tuple (last-send tsc, session). Sessions are
identified by an id standing for the C++ `Session *` pointer. -/
structure in_flight_req_t where
  prev_tsc : Nat
  session : Nat
deriving DecidableEq

/-- `Rpc<Transport_>::send_connect_req_one`: builds a `SessionMgmtPkt` of
kind `kConnectReq`, copies the session's client and server descriptors
into it byte for byte, and sends it to `session->server.hostname`. -/
def send_connect_req_one (session : Session) : MgmtSend :=
  (session.server.hostname,
    { pkt_kind := SessionMgmtPktType.kConnectReq,
      client := session.client,
      server := session.server })

/-- `Rpc<Transport_>::send_disconnect_req_one`: the body is
`_unused(session);` — it emits no datagram at all. -/
def send_disconnect_req_one (_session : Session) : List MgmtSend :=
  []

/-- `Rpc<Transport_>::add_to_in_flight`: appends (rdtsc(), session) to
`in_flight_vec`; an assertion requires the session not to be present. -/
def add_to_in_flight (tsc : Nat) (session : Nat)
    (vec : List in_flight_req_t) : List in_flight_req_t :=
  vec ++ [{ prev_tsc := tsc, session := session }]

/-- `Rpc<Transport_>::is_in_flight`: linear scan for the session. -/
def is_in_flight (session : Nat) (vec : List in_flight_req_t) : Bool :=
  vec.any (fun req => req.session = session)

/-- `Rpc<Transport_>::remove_from_in_flight`: erase-remove of every entry
equal to a dummy `(0, session)` entry. Modelled from the spec: the
`operator ==` of `in_flight_req_t` lives in `rpc.h`, which is absent from
the excerpt; the dummy timestamp 0 in `remove_from_in_flight` shows it
compares only the `session` field, so removal keeps exactly the entries
whose session differs. -/
def remove_from_in_flight (session : Nat)
    (vec : List in_flight_req_t) : List in_flight_req_t :=
  vec.filter (fun req => req.session ≠ session)

/-- `to_sec(cycles, freq_ghz)`: cycles divided by (freq_ghz * 10^9),
over the rationals in place of `double`. -/
def to_sec (cycles : Nat) (freq_ghz : ℚ) : ℚ :=
  (cycles : ℚ) / (freq_ghz * 1000000000)

/-- The retransmit-expiry test of `retry_in_flight`:
`elapsed_ms > kSessionMgmtRetransMs` where
`elapsed_ms = to_sec(cur_tsc - prev_tsc, freq_ghz) * 1000`. The threshold
`retransMs` stands for the configuration constant `kSessionMgmtRetransMs`
(spec section 6, `mgmt_retrans_ms T_mgmt`), declared outside the excerpt. -/
def mgmt_expired (freq_ghz retransMs : ℚ) (cur_tsc prev_tsc : Nat) : Bool :=
  decide (to_sec (cur_tsc - prev_tsc) freq_ghz * 1000 > retransMs)

/-- The body of the `retry_in_flight` loop for one in-flight entry:
on expiry, send a connect-req (connect-in-progress or
disconnect-wait-for-connect) or a disconnect-req (disconnect-in-progress)
and update the entry's `prev_tsc` to `cur_tsc`; otherwise leave the entry
alone and send nothing. -/
def retry_one (freq_ghz retransMs : ℚ) (cur_tsc : Nat)
    (sessions : Nat → Session) (req : in_flight_req_t) :
    in_flight_req_t × List MgmtSend :=
  let state := (sessions req.session).state
  if mgmt_expired freq_ghz retransMs cur_tsc req.prev_tsc then
    let sends :=
      match state with
      | SessionState.kConnectInProgress =>
          [send_connect_req_one (sessions req.session)]
      | SessionState.kDisconnectWaitForConnect =>
          [send_connect_req_one (sessions req.session)]
      | SessionState.kDisconnectInProgress =>
          send_disconnect_req_one (sessions req.session)
      | _ => []
    ({ req with prev_tsc := cur_tsc }, sends)
  else
    (req, [])

/-- The endpoint state the retry module touches: the session table
(indexed by session id) and the in-flight vector. -/
structure RpcState where
  sessions : Nat → Session
  in_flight_vec : List in_flight_req_t

/-- `Rpc<Transport_>::retry_in_flight`: sweep every in-flight entry with
`retry_one` at a single `cur_tsc = rdtsc()`; the session table itself is
never written. Returns the new endpoint state and the datagrams sent. -/
def retry_in_flight (freq_ghz retransMs : ℚ) (cur_tsc : Nat)
    (st : RpcState) : RpcState × List MgmtSend :=
  let results :=
    st.in_flight_vec.map (retry_one freq_ghz retransMs cur_tsc st.sessions)
  ({ sessions := st.sessions, in_flight_vec := results.map Prod.fst },
    (results.map Prod.snd).flatten)

/-- Default entry used with `List.getD` when indexing the in-flight
vector. -/
def dfltReq : in_flight_req_t :=
  { prev_tsc := 0, session := 0 }

theorem mgmt_expired_iff (freq_ghz retransMs : ℚ) (cur_tsc prev_tsc : Nat) :
    mgmt_expired freq_ghz retransMs cur_tsc prev_tsc = true ↔
      to_sec (cur_tsc - prev_tsc) freq_ghz * 1000 > retransMs := by
  simp [mgmt_expired]

theorem retry_in_flight_vec_map (freq_ghz retransMs : ℚ) (cur_tsc : Nat)
    (st : RpcState) :
    (retry_in_flight freq_ghz retransMs cur_tsc st).1.in_flight_vec =
      st.in_flight_vec.map
        (fun req => (retry_one freq_ghz retransMs cur_tsc st.sessions req).1) := by
  simp [retry_in_flight]

theorem retry_in_flight_getD (freq_ghz retransMs : ℚ) (cur_tsc : Nat)
    (st : RpcState) (i : Nat) (h : i < st.in_flight_vec.length) :
    ((retry_in_flight freq_ghz retransMs cur_tsc st).1.in_flight_vec.getD i
        dfltReq) =
      (retry_one freq_ghz retransMs cur_tsc st.sessions
        (st.in_flight_vec.getD i dfltReq)).1 := by
  rw [retry_in_flight_vec_map]
  rw [List.getD_eq_getElem _ _ (by simpa using h), List.getD_eq_getElem _ _ h]
  simp

/-- Claim C1: for an in-flight entry whose session is in
connect-in-progress or disconnect-wait-for-connect, the sweep resends a
connect-req if and only if the elapsed wall time since the entry's
`prev_tsc` exceeds the threshold `kSessionMgmtRetransMs`, and on resend
the entry's timestamp in the new in-flight vector is `cur_tsc`. -/
theorem retry_in_flight_connect_retrans_iff
    (freq_ghz retransMs : ℚ) (cur_tsc : Nat) (st : RpcState) (i : Nat)
    (h : i < st.in_flight_vec.length)
    (hst : (st.sessions ((st.in_flight_vec.getD i dfltReq).session)).state =
             SessionState.kConnectInProgress ∨
           (st.sessions ((st.in_flight_vec.getD i dfltReq).session)).state =
             SessionState.kDisconnectWaitForConnect) :
    (retry_one freq_ghz retransMs cur_tsc st.sessions
        (st.in_flight_vec.getD i dfltReq)).2 =
      (if to_sec (cur_tsc - (st.in_flight_vec.getD i dfltReq).prev_tsc)
              freq_ghz * 1000 > retransMs
       then [send_connect_req_one
              (st.sessions ((st.in_flight_vec.getD i dfltReq).session))]
       else []) ∧
    ((retry_in_flight freq_ghz retransMs cur_tsc st).1.in_flight_vec.getD i
        dfltReq) =
      (if to_sec (cur_tsc - (st.in_flight_vec.getD i dfltReq).prev_tsc)
              freq_ghz * 1000 > retransMs
       then { st.in_flight_vec.getD i dfltReq with prev_tsc := cur_tsc }
       else st.in_flight_vec.getD i dfltReq) := by
  set req := st.in_flight_vec.getD i dfltReq with hreq
  have hget := retry_in_flight_getD freq_ghz retransMs cur_tsc st i h
  by_cases hexp : to_sec (cur_tsc - req.prev_tsc) freq_ghz * 1000 > retransMs
  · have hb : mgmt_expired freq_ghz retransMs cur_tsc req.prev_tsc = true :=
      (mgmt_expired_iff _ _ _ _).mpr hexp
    constructor
    · rw [if_pos hexp]
      rcases hst with hs | hs <;>
        simp [retry_one, hb, hs, send_disconnect_req_one]
    · rw [hget, ← hreq, if_pos hexp]
      rcases hst with hs | hs <;>
        simp [retry_one, hb, hs]
  · have hb : mgmt_expired freq_ghz retransMs cur_tsc req.prev_tsc = false := by
      simp only [mgmt_expired, decide_eq_false_iff_not]
      exact hexp
    constructor
    · rw [if_neg hexp]
      simp [retry_one, hb]
    · rw [hget, ← hreq, if_neg hexp]
      simp [retry_one, hb]

/-- Concrete client-side endpoint descriptor used in witnesses. -/
def cxDescClient : EndpointDescriptor :=
  { hostname := "client-host", transport_type := 0,
    endpoint_id := 0, session_number := 0 }

/-- Concrete server-side endpoint descriptor used in witnesses. -/
def cxDescServer : EndpointDescriptor :=
  { hostname := "server-host", transport_type := 0,
    endpoint_id := 1, session_number := 7 }

/-- Concrete client session in connect-in-progress, for witnesses. -/
def cxSessionCIP : Session :=
  { role := Role.kClient, state := SessionState.kConnectInProgress,
    client := cxDescClient, server := cxDescServer }

/-- Concrete endpoint state holding a single in-flight entry whose
session is `cxSessionCIP`, with last-send tsc 0. -/
def cxStateCIP : RpcState :=
  { sessions := fun _ => cxSessionCIP,
    in_flight_vec := [{ prev_tsc := 0, session := 0 }] }

/-- Witness for C1: at tsc 2·10^9 with freq 1 GHz and a 1 ms threshold,
the concrete expired connect-in-progress entry is retransmitted. -/
theorem retry_in_flight_connect_retrans_iff_witness :
    (retry_one 1 1 2000000000 cxStateCIP.sessions
        { prev_tsc := 0, session := 0 }).2 =
      [send_connect_req_one cxSessionCIP] := by
  have h := (retry_in_flight_connect_retrans_iff 1 1 2000000000 cxStateCIP 0
    (by simp [cxStateCIP]) (Or.inl rfl)).1
  have hd : cxStateCIP.in_flight_vec.getD 0 dfltReq =
      { prev_tsc := 0, session := 0 } := rfl
  rw [hd] at h
  rw [h, if_pos (by norm_num [to_sec])]
  rfl

/-- Concrete client session in disconnect-in-progress, for C2. -/
def cxSessionDIP : Session :=
  { role := Role.kClient, state := SessionState.kDisconnectInProgress,
    client := cxDescClient, server := cxDescServer }

/-- Claim C2 evaluated at the failing input: an in-flight entry whose
session is in disconnect-in-progress and whose elapsed time (2 seconds at
1 GHz) far exceeds the 1 ms threshold produces NO outgoing datagram,
because the body of `send_disconnect_req_one` is `_unused(session);` and
sends nothing — contradicting its own doc comment ("Send or resend the
disconnect request for a session") and the spec. -/
theorem retry_in_flight_disconnect_sends_nothing :
    (retry_in_flight 1 1 2000000000
        { sessions := fun _ => cxSessionDIP,
          in_flight_vec := [{ prev_tsc := 0, session := 0 }] }).2 = [] ∧
    to_sec (2000000000 - 0) 1 * 1000 > (1 : ℚ) := by
  constructor
  · have hb : mgmt_expired 1 1 2000000000 0 = true := by
      simp only [mgmt_expired, decide_eq_true_eq]
      norm_num [to_sec]
    simp [retry_in_flight, retry_one, hb, cxSessionDIP,
      send_disconnect_req_one]
  · norm_num [to_sec]

/-- Claim C3: one execution of `retry_in_flight` leaves the session table
(hence every session's state, role and descriptors) unchanged, keeps the
in-flight vector's length and every entry's session id, and the only
field it may change is an entry's `prev_tsc`, which becomes `cur_tsc`. -/
theorem retry_in_flight_frame
    (freq_ghz retransMs : ℚ) (cur_tsc : Nat) (st : RpcState) :
    (retry_in_flight freq_ghz retransMs cur_tsc st).1.sessions =
      st.sessions ∧
    (retry_in_flight freq_ghz retransMs cur_tsc st).1.in_flight_vec.length =
      st.in_flight_vec.length ∧
    ∀ i, i < st.in_flight_vec.length →
      ((retry_in_flight freq_ghz retransMs cur_tsc
            st).1.in_flight_vec.getD i dfltReq).session =
        (st.in_flight_vec.getD i dfltReq).session ∧
      (((retry_in_flight freq_ghz retransMs cur_tsc
            st).1.in_flight_vec.getD i dfltReq).prev_tsc =
          (st.in_flight_vec.getD i dfltReq).prev_tsc ∨
       ((retry_in_flight freq_ghz retransMs cur_tsc
            st).1.in_flight_vec.getD i dfltReq).prev_tsc = cur_tsc) := by
  refine ⟨rfl, by simp [retry_in_flight], ?_⟩
  intro i h
  rw [retry_in_flight_getD freq_ghz retransMs cur_tsc st i h]
  generalize st.in_flight_vec.getD i dfltReq = req
  by_cases hb : mgmt_expired freq_ghz retransMs cur_tsc req.prev_tsc = true
  · simp [retry_one, hb]
  · simp [retry_one, hb]

/-- Witness for C3 at a concrete state: the session table survives the
sweep and the single entry keeps its session id. -/
theorem retry_in_flight_frame_witness :
    (retry_in_flight 1 1 2000000000 cxStateCIP).1.sessions =
      cxStateCIP.sessions ∧
    ((retry_in_flight 1 1 2000000000
        cxStateCIP).1.in_flight_vec.getD 0 dfltReq).session =
      (cxStateCIP.in_flight_vec.getD 0 dfltReq).session := by
  refine ⟨(retry_in_flight_frame 1 1 2000000000 cxStateCIP).1, ?_⟩
  exact ((retry_in_flight_frame 1 1 2000000000 cxStateCIP).2.2 0
    (by simp [cxStateCIP])).1

/-- Claim C7: for a client session in connect-in-progress or
disconnect-wait-for-connect, `send_connect_req_one` builds a packet of
kind connect-req whose client and server descriptors are copies of the
session's, and addresses it to the session's server hostname. -/
theorem send_connect_req_one_spec (s : Session)
    (_hrole : s.role = Role.kClient)
    (_hst : s.state = SessionState.kConnectInProgress ∨
            s.state = SessionState.kDisconnectWaitForConnect) :
    send_connect_req_one s =
      (s.server.hostname,
        { pkt_kind := SessionMgmtPktType.kConnectReq,
          client := s.client, server := s.server }) := rfl

/-- Witness for C7 at the concrete connect-in-progress session. -/
theorem send_connect_req_one_spec_witness :
    send_connect_req_one cxSessionCIP =
      (cxSessionCIP.server.hostname,
        { pkt_kind := SessionMgmtPktType.kConnectReq,
          client := cxSessionCIP.client, server := cxSessionCIP.server }) :=
  send_connect_req_one_spec cxSessionCIP rfl (Or.inl rfl)

theorem is_in_flight_eq_false_iff (s : Nat) (vec : List in_flight_req_t) :
    is_in_flight s vec = false ↔ ∀ req ∈ vec, req.session ≠ s := by
  simp [is_in_flight]

theorem is_in_flight_remove_self (s : Nat) (vec : List in_flight_req_t) :
    is_in_flight s (remove_from_in_flight s vec) = false := by
  rw [is_in_flight_eq_false_iff]
  intro req hmem
  have := List.of_mem_filter hmem
  simpa using this

/-- Claim C4: on an in-flight vector not containing session `s`,
removing after adding restores the vector; `is_in_flight` holds right
after the add and fails right after the remove. -/
theorem in_flight_add_remove_roundtrip (vec : List in_flight_req_t)
    (tsc : Nat) (s : Nat) (h : is_in_flight s vec = false) :
    remove_from_in_flight s (add_to_in_flight tsc s vec) = vec ∧
    is_in_flight s (add_to_in_flight tsc s vec) = true ∧
    is_in_flight s (remove_from_in_flight s (add_to_in_flight tsc s vec)) =
      false := by
  have hall := (is_in_flight_eq_false_iff s vec).mp h
  refine ⟨?_, ?_, is_in_flight_remove_self s _⟩
  · unfold remove_from_in_flight add_to_in_flight
    rw [List.filter_append]
    have h1 : vec.filter (fun req => req.session ≠ s) = vec :=
      List.filter_eq_self.mpr (fun a ha => by simpa using hall a ha)
    have h2 : ([{ prev_tsc := tsc, session := s }] :
        List in_flight_req_t).filter (fun req => req.session ≠ s) = [] := by
      simp
    rw [h1, h2, List.append_nil]
  · unfold is_in_flight add_to_in_flight
    rw [List.any_append]
    simp

/-- Witness for C4 on a concrete two-element history. -/
theorem in_flight_add_remove_roundtrip_witness :
    remove_from_in_flight 2
        (add_to_in_flight 9 2 [{ prev_tsc := 1, session := 1 }]) =
      [{ prev_tsc := 1, session := 1 }] ∧
    is_in_flight 2
        (add_to_in_flight 9 2 [{ prev_tsc := 1, session := 1 }]) = true :=
  ⟨(in_flight_add_remove_roundtrip [{ prev_tsc := 1, session := 1 }] 9 2
      (by decide)).1,
   (in_flight_add_remove_roundtrip [{ prev_tsc := 1, session := 1 }] 9 2
      (by decide)).2.1⟩

/-- The uniqueness invariant of the in-flight vector: no session id
occurs twice. -/
def in_flight_unique (vec : List in_flight_req_t) : Prop :=
  (vec.map in_flight_req_t.session).Nodup

theorem retry_one_session_eq (freq_ghz retransMs : ℚ) (cur_tsc : Nat)
    (sessions : Nat → Session) (req : in_flight_req_t) :
    (retry_one freq_ghz retransMs cur_tsc sessions req).1.session =
      req.session := by
  by_cases hb : mgmt_expired freq_ghz retransMs cur_tsc req.prev_tsc = true
  · simp [retry_one, hb]
  · simp [retry_one, hb]

theorem remove_length_of_unique (vec : List in_flight_req_t) (s : Nat)
    (hu : in_flight_unique vec) (hin : is_in_flight s vec = true) :
    (remove_from_in_flight s vec).length = vec.length - 1 := by
  induction vec with
  | nil => simp [is_in_flight] at hin
  | cons req rest ih =>
    unfold in_flight_unique at hu
    rw [List.map_cons, List.nodup_cons] at hu
    obtain ⟨hnot, hnd⟩ := hu
    by_cases hs : req.session = s
    · have hnotin : ∀ a ∈ rest, a.session ≠ s := by
        intro a ha hcontra
        refine hnot ?_
        rw [hs, ← hcontra]
        exact List.mem_map_of_mem in_flight_req_t.session ha
      have hfilter : remove_from_in_flight s rest = rest := by
        unfold remove_from_in_flight
        refine List.filter_eq_self.mpr (fun a ha => ?_)
        simpa using hnotin a ha
      have hstep : remove_from_in_flight s (req :: rest) =
          remove_from_in_flight s rest := by
        unfold remove_from_in_flight
        rw [List.filter_cons]
        simp [hs]
      rw [hstep, hfilter]
      simp
    · have hin' : is_in_flight s rest = true := by
        unfold is_in_flight at hin ⊢
        simp only [List.any_cons] at hin
        rcases Bool.or_eq_true_iff.mp hin with h1 | h1
        · exact absurd (by simpa using h1) hs
        · exact h1
      have hu' : in_flight_unique rest := hnd
      have hpos : 0 < rest.length := by
        cases rest with
        | nil => simp [is_in_flight] at hin'
        | cons a l => simp
      have hstep : remove_from_in_flight s (req :: rest) =
          req :: remove_from_in_flight s rest := by
        unfold remove_from_in_flight
        rw [List.filter_cons]
        simp [hs]
      have hlen := ih hu' hin'
      rw [hstep]
      simp only [List.length_cons, hlen]
      omega

theorem remove_preserves_unique (vec : List in_flight_req_t) (s : Nat)
    (hu : in_flight_unique vec) :
    in_flight_unique (remove_from_in_flight s vec) := by
  unfold in_flight_unique at hu ⊢
  unfold remove_from_in_flight
  exact ((List.filter_sublist vec).map in_flight_req_t.session).nodup hu

theorem retry_preserves_unique (freq_ghz retransMs : ℚ) (cur_tsc : Nat)
    (st : RpcState) (hu : in_flight_unique st.in_flight_vec) :
    in_flight_unique
      (retry_in_flight freq_ghz retransMs cur_tsc st).1.in_flight_vec := by
  rw [retry_in_flight_vec_map]
  unfold in_flight_unique at hu ⊢
  rw [List.map_map]
  have hcongr : st.in_flight_vec.map
      (in_flight_req_t.session ∘
        fun req => (retry_one freq_ghz retransMs cur_tsc st.sessions req).1) =
      st.in_flight_vec.map in_flight_req_t.session := by
    refine List.map_congr_left (fun a _ => ?_)
    exact retry_one_session_eq freq_ghz retransMs cur_tsc st.sessions a
  rw [hcongr]
  exact hu

/-- Claim C10: sessions are unique in the in-flight vector. Adding a
session that is absent preserves uniqueness (the duplicate-scan assertion
in `add_to_in_flight` guards exactly this precondition); removing a
present session deletes exactly one entry (the vector shrinks by exactly
1, as `remove_from_in_flight` asserts) and preserves uniqueness; and the
retransmit sweep preserves uniqueness. -/
theorem in_flight_uniqueness_invariant :
    (∀ vec tsc s, in_flight_unique vec → is_in_flight s vec = false →
       in_flight_unique (add_to_in_flight tsc s vec)) ∧
    (∀ vec s, in_flight_unique vec → is_in_flight s vec = true →
       (remove_from_in_flight s vec).length = vec.length - 1 ∧
       in_flight_unique (remove_from_in_flight s vec)) ∧
    (∀ (freq_ghz retransMs : ℚ) (cur_tsc : Nat) (st : RpcState),
       in_flight_unique st.in_flight_vec →
       in_flight_unique
         (retry_in_flight freq_ghz retransMs cur_tsc st).1.in_flight_vec) := by
  refine ⟨?_, ?_, retry_preserves_unique⟩
  · intro vec tsc s hu habs
    unfold in_flight_unique at hu ⊢
    unfold add_to_in_flight
    rw [List.map_append]
    rw [List.nodup_append]
    refine ⟨hu, by simp, ?_⟩
    intro a ha hb
    simp at hb
    rcases List.mem_map.mp ha with ⟨r, hr, hrs⟩
    exact ((is_in_flight_eq_false_iff s vec).mp habs r hr) (by rw [← hb, hrs])
  · intro vec s hu hin
    exact ⟨remove_length_of_unique vec s hu hin,
           remove_preserves_unique vec s hu⟩

/-- Witness for C10 on concrete vectors: adding session 3 to a singleton
vector keeps uniqueness, and removing session 1 from it shrinks it by
exactly one. -/
theorem in_flight_uniqueness_invariant_witness :
    in_flight_unique
        (add_to_in_flight 5 3 [{ prev_tsc := 1, session := 1 }]) ∧
    (remove_from_in_flight 1 [{ prev_tsc := 1, session := 1 }]).length =
      ([{ prev_tsc := 1, session := 1 }] :
        List in_flight_req_t).length - 1 := by
  constructor
  · exact in_flight_uniqueness_invariant.1 [{ prev_tsc := 1, session := 1 }]
      5 3 (by simp [in_flight_unique]) (by decide)
  · exact (in_flight_uniqueness_invariant.2.1 [{ prev_tsc := 1, session := 1 }]
      1 (by simp [in_flight_unique]) (by decide)).1

/-! Embedding of `tests/test_req_in_req_func.cc`: the per-hop byte
transformations of the nested-request scenario, the `tag_t` union, and
`get_rand_msg_size`. Bytes are `Nat` values reduced modulo 2^8. -/

/-- One `uint8_t` increment, `dst[i] = src[i] + 1` with 8-bit wrap. -/
def byte_add_one (b : Nat) : Nat :=
  (b + 1) % 256

/-- `req_handler_cs` (server 0): the buffer forwarded to server 1 has the
same length as the client-to-server request and each byte is the
corresponding request byte plus one. -/
def req_handler_cs_bytes (req : List Nat) : List Nat :=
  req.map byte_add_one

/-- `req_handler_ss` (server 1): the response to server 0 has the same
length as the server-to-server request and each byte is the request byte
plus one. -/
def req_handler_ss_bytes (req : List Nat) : List Nat :=
  req.map byte_add_one

/-- `server_cont_func` (server 0's continuation): the response to the
client has the same length and each byte is the server-to-server response
byte plus one. -/
def server_cont_func_bytes (resp : List Nat) : List Nat :=
  resp.map byte_add_one

/-- `client_request_helper`: every byte of the request buffer is the
fill byte `(uint8_t)msgbuf_i`. -/
def client_request_fill (msgbuf_i L : Nat) : List Nat :=
  List.replicate L (msgbuf_i % 256)

/-- Claim C6: for a client request of length `L` whose every byte is the
fill byte, composing the three per-hop transformations yields a client
response of the same length `L` whose every byte is the fill byte plus 3
modulo 256 — exactly what `client_cont_func` asserts. -/
theorem nested_request_bytes (req : List Nat) (fillb : Nat)
    (hfill : ∀ x ∈ req, x = fillb) (_hb : fillb < 256) :
    server_cont_func_bytes (req_handler_ss_bytes (req_handler_cs_bytes req)) =
      List.replicate req.length ((fillb + 3) % 256) := by
  unfold server_cont_func_bytes req_handler_ss_bytes req_handler_cs_bytes
  rw [List.map_map, List.map_map]
  rw [List.eq_replicate_iff]
  constructor
  · simp
  · intro b hbmem
    rcases List.mem_map.mp hbmem with ⟨x, hx, hxb⟩
    rw [← hxb, hfill x hx]
    simp only [Function.comp, byte_add_one]
    omega

/-- Witness for C6: a 3-byte request filled with byte 5 comes back as
three bytes equal to 8. -/
theorem nested_request_bytes_witness :
    server_cont_func_bytes (req_handler_ss_bytes
        (req_handler_cs_bytes (client_request_fill 5 3))) =
      List.replicate 3 8 := by
  have h := nested_request_bytes (client_request_fill 5 3) 5
    (by intro x hx
        simpa [client_request_fill] using List.eq_of_mem_replicate hx)
    (by decide)
  simpa [client_request_fill] using h

/-- The `tag_t` union of the test, seen through its `size_t tag` member:
the struct view places `req_i` in bits 0-15, `msgbuf_i` in bits 16-31 and
`req_size` in bits 32-63 of the machine word (native little-endian
layout), so packing is low-to-high positional. -/
def tag_pack (req_i msgbuf_i req_size : Nat) : Nat :=
  req_i + 2 ^ 16 * msgbuf_i + 2 ^ 32 * req_size

/-- The `req_i` field read back from a received tag word. -/
def tag_unpack_req_i (t : Nat) : Nat :=
  t % 2 ^ 16

/-- The `msgbuf_i` field read back from a received tag word. -/
def tag_unpack_msgbuf_i (t : Nat) : Nat :=
  t / 2 ^ 16 % 2 ^ 16

/-- The `req_size` field read back from a received tag word. -/
def tag_unpack_req_size (t : Nat) : Nat :=
  t / 2 ^ 32 % 2 ^ 32

/-- Claim C8: for in-range fields (uint16_t, uint16_t, uint32_t), the tag
word packed at enqueue time unpacks in the continuation to exactly the
same `req_i`, `msgbuf_i` and `req_size`, and the packed word fits in one
machine word (`sizeof(tag_t) == sizeof(size_t)`, 64 bits). -/
theorem tag_roundtrip (req_i msgbuf_i req_size : Nat)
    (h1 : req_i < 2 ^ 16) (h2 : msgbuf_i < 2 ^ 16) (h3 : req_size < 2 ^ 32) :
    tag_unpack_req_i (tag_pack req_i msgbuf_i req_size) = req_i ∧
    tag_unpack_msgbuf_i (tag_pack req_i msgbuf_i req_size) = msgbuf_i ∧
    tag_unpack_req_size (tag_pack req_i msgbuf_i req_size) = req_size ∧
    tag_pack req_i msgbuf_i req_size < 2 ^ 64 := by
  unfold tag_pack tag_unpack_req_i tag_unpack_msgbuf_i tag_unpack_req_size
  refine ⟨?_, ?_, ?_, ?_⟩ <;> omega

/-- Witness for C8 at the concrete triple (3, 5, 70000). -/
theorem tag_roundtrip_witness :
    tag_unpack_req_i (tag_pack 3 5 70000) = 3 ∧
    tag_unpack_msgbuf_i (tag_pack 3 5 70000) = 5 ∧
    tag_unpack_req_size (tag_pack 3 5 70000) = 70000 := by
  have h := tag_roundtrip 3 5 70000 (by decide) (by decide) (by decide)
  exact ⟨h.1, h.2.1, h.2.2.1⟩

/-- `get_rand_msg_size`: reduce a 32-bit random sample modulo the maximum
message size and map a zero residue to 1. `kMaxMsgSize` is
`Rpc<IBTransport>::kMaxMsgSize`. Modelled from the spec: the constant is
declared in `rpc.h`, absent from the excerpt; it is the configuration
bound `max_msg_size` and is at least 2. -/
def get_rand_msg_size (kMaxMsgSize : Nat) (sample : Nat) : Nat :=
  let msg_size := sample % kMaxMsgSize
  if msg_size = 0 then 1 else msg_size

/-- Claim C9: for every random sample, `get_rand_msg_size` returns a size
that is at least 1 (a zero residue maps to 1) and strictly below
`kMaxMsgSize`. -/
theorem get_rand_msg_size_range (kMaxMsgSize sample : Nat)
    (hmax : 2 ≤ kMaxMsgSize) :
    1 ≤ get_rand_msg_size kMaxMsgSize sample ∧
    get_rand_msg_size kMaxMsgSize sample < kMaxMsgSize := by
  unfold get_rand_msg_size
  by_cases h : sample % kMaxMsgSize = 0
  · simp only [h, if_pos]
    omega
  · simp only [h, if_neg, ite_false]
    exact ⟨by omega, Nat.mod_lt _ (by omega)⟩

/-- Witness for C9: a sample that is a multiple of the bound is mapped
into the interval, as is a sample that is not. -/
theorem get_rand_msg_size_range_witness :
    (1 ≤ get_rand_msg_size 10 40 ∧ get_rand_msg_size 10 40 < 10) ∧
    (1 ≤ get_rand_msg_size 10 47 ∧ get_rand_msg_size 10 47 < 10) :=
  ⟨get_rand_msg_size_range 10 40 (by decide),
   get_rand_msg_size_range 10 47 (by decide)⟩

/-! Embedding of `tests/util_tests/timing_wheel_test.cc` (RateTest).
The wheel itself is declared in `cc/timing_wheel.h`, which is absent
from the excerpt, so the wheel is modelled from the spec (section 4.3). -/

/-- A wheel entry, `wheel_ent_t(sslot, pkt_num)`; the test's dummy entry
is `wheel_ent_t(nullptr, 1)`. -/
structure wheel_ent_t where
  sslot : Option Nat
  pkt_num : Nat
deriving DecidableEq

/-- The dummy entry the rate test inserts. -/
def dummy_ent : wheel_ent_t :=
  { sslot := none, pkt_num := 1 }

/-- Modelled from the spec: the TimingWheel of section 4.3, missing from
the excerpt as `cc/timing_wheel.h`. A ring of `num_wslots` buckets each
covering `wslot_width_tsc` cycles; `base_tsc` is the cycle timestamp
aligned to the current bucket; drained entries accumulate in
`ready_queue` in FIFO order. -/
structure TimingWheel where
  wslot_width_tsc : Nat
  num_wslots : Nat
  base_tsc : Nat
  slots : List (List wheel_ent_t)
  ready_queue : List wheel_ent_t
deriving DecidableEq

/-- The ring index of the bucket containing `base_tsc`. -/
def cur_wslot (tw : TimingWheel) : Nat :=
  tw.base_tsc / tw.wslot_width_tsc % tw.num_wslots

/-- Modelled from the spec: `insert(entry, desired_tsc)` places the entry
into the bucket covering `desired_tsc`; a timestamp in the past goes to
the current bucket and one beyond the horizon is clamped to the furthest
bucket. -/
def TimingWheel.insert (tw : TimingWheel) (ent : wheel_ent_t)
    (desired_tsc : Nat) : TimingWheel :=
  let off := min ((desired_tsc - tw.base_tsc) / tw.wslot_width_tsc)
    (tw.num_wslots - 1)
  let idx := (cur_wslot tw + off) % tw.num_wslots
  { tw with slots := tw.slots.set idx (tw.slots.getD idx [] ++ [ent]) }

/-- One step of `reap`: drain the current bucket into the ready queue and
advance `base_tsc` by one bucket width. -/
def reap_one (tw : TimingWheel) : TimingWheel :=
  { tw with
    ready_queue := tw.ready_queue ++ tw.slots.getD (cur_wslot tw) [],
    slots := tw.slots.set (cur_wslot tw) [],
    base_tsc := tw.base_tsc + tw.wslot_width_tsc }

def reap_steps : Nat → TimingWheel → TimingWheel
  | 0, tw => tw
  | n + 1, tw => reap_steps n (reap_one tw)

/-- Modelled from the spec: `reap(now_tsc)` advances `base_tsc` one
bucket at a time while `now_tsc ≥ base_tsc + w`, draining every crossed
bucket; with `w > 0` the number of iterations is
`(now_tsc - base_tsc) / w`. -/
def TimingWheel.reap (tw : TimingWheel) (now_tsc : Nat) : TimingWheel :=
  reap_steps ((now_tsc - tw.base_tsc) / tw.wslot_width_tsc) tw

/-- `ready_queue.pop()`: drop the front of the FIFO ready queue. -/
def pop_ready (tw : TimingWheel) : TimingWheel :=
  { tw with ready_queue := tw.ready_queue.tail }

/-- The rate test's window prime (`timing_wheel_test.cc` lines 81-84):
insert `n` dummy entries spaced `cycles_per_pkt` apart starting at
`last_tsc`. State is (wheel, last_tsc). -/
def send_window (cycles_per_pkt : Nat) :
    Nat → TimingWheel × Nat → TimingWheel × Nat
  | 0, s => s
  | n + 1, (tw, last_tsc) =>
      send_window cycles_per_pkt n
        (tw.insert dummy_ent last_tsc, last_tsc + cycles_per_pkt)

/-- The inner `for` loop of the rate test (lines 94-98): for each of the
`n` ready entries, insert a fresh dummy entry at `last_tsc`, advance
`last_tsc`, and pop one old entry from the ready queue. -/
def send_and_pop (cycles_per_pkt : Nat) :
    Nat → TimingWheel × Nat → TimingWheel × Nat
  | 0, s => s
  | n + 1, (tw, last_tsc) =>
      send_and_pop cycles_per_pkt n
        (pop_ready (tw.insert dummy_ent last_tsc),
          last_tsc + cycles_per_pkt)

/-- One iteration of the rate test's transmit `while` loop (lines
86-100): reap at `now`, snapshot `num_ready`, and if positive, count the
entries as sent and run the insert-and-pop loop `num_ready` times. State
is (wheel, last_tsc, num_pkts_sent). -/
def rate_test_iter (cycles_per_pkt now : Nat) :
    TimingWheel × Nat × Nat → TimingWheel × Nat × Nat
  | (tw0, last_tsc, num_pkts_sent) =>
      let tw := tw0.reap now
      let num_ready := tw.ready_queue.length
      if 0 < num_ready then
        let s := send_and_pop cycles_per_pkt num_ready (tw, last_tsc)
        (s.1, s.2, num_pkts_sent + num_ready)
      else
        (tw, last_tsc, num_pkts_sent)

/-- Entries resident in the wheel's buckets plus the ready queue. -/
def wheelTotal (tw : TimingWheel) : Nat :=
  (tw.slots.map List.length).sum + tw.ready_queue.length

/-- Structural well-formedness of the ring: the slot list realizes the
ring of `num_wslots` buckets and widths are positive. -/
def wheelWF (tw : TimingWheel) : Prop :=
  tw.slots.length = tw.num_wslots ∧ 0 < tw.num_wslots ∧
    0 < tw.wslot_width_tsc

/-- An empty wheel of `B` buckets of width `w`, as freshly constructed
by the test before the first insert. -/
def emptyWheel (B w : Nat) : TimingWheel :=
  { wslot_width_tsc := w, num_wslots := B, base_tsc := 0,
    slots := List.replicate B [], ready_queue := [] }

theorem sum_set_lemma (ls : List (List wheel_ent_t)) (i : Nat)
    (x : List wheel_ent_t) (h : i < ls.length) :
    ((ls.set i x).map List.length).sum + (ls.getD i []).length =
      (ls.map List.length).sum + x.length := by
  induction ls generalizing i with
  | nil => simp at h
  | cons a l ih =>
    cases i with
    | zero =>
      simp [List.getD]
      omega
    | succ j =>
      have hj : j < l.length := by simpa using h
      have hrec := ih j hj
      have hset : (a :: l).set (j + 1) x = a :: l.set j x := rfl
      rw [hset]
      simp only [List.map_cons, List.sum_cons, List.getD_cons_succ]
      omega

theorem insert_wf (tw : TimingWheel) (ent : wheel_ent_t) (t : Nat)
    (hwf : wheelWF tw) : wheelWF (tw.insert ent t) := by
  obtain ⟨hlen, hB, hw⟩ := hwf
  exact ⟨by simpa [TimingWheel.insert] using hlen, hB, hw⟩

theorem insert_ready_queue (tw : TimingWheel) (ent : wheel_ent_t)
    (t : Nat) : (tw.insert ent t).ready_queue = tw.ready_queue := rfl

theorem wheelTotal_insert (tw : TimingWheel) (ent : wheel_ent_t) (t : Nat)
    (hwf : wheelWF tw) :
    wheelTotal (tw.insert ent t) = wheelTotal tw + 1 := by
  obtain ⟨hlen, hB, hw⟩ := hwf
  unfold wheelTotal TimingWheel.insert
  simp only
  have hidx : (cur_wslot tw +
      min ((t - tw.base_tsc) / tw.wslot_width_tsc) (tw.num_wslots - 1)) %
        tw.num_wslots < tw.slots.length := by
    rw [hlen]
    exact Nat.mod_lt _ hB
  have hsum := sum_set_lemma tw.slots _
    (tw.slots.getD ((cur_wslot tw +
      min ((t - tw.base_tsc) / tw.wslot_width_tsc) (tw.num_wslots - 1)) %
        tw.num_wslots) [] ++ [ent]) hidx
  simp only [List.length_append, List.length_singleton] at hsum
  omega

theorem reap_one_wf (tw : TimingWheel) (hwf : wheelWF tw) :
    wheelWF (reap_one tw) := by
  obtain ⟨hlen, hB, hw⟩ := hwf
  exact ⟨by simpa [reap_one] using hlen, hB, hw⟩

theorem wheelTotal_reap_one (tw : TimingWheel) (hwf : wheelWF tw) :
    wheelTotal (reap_one tw) = wheelTotal tw := by
  obtain ⟨hlen, hB, hw⟩ := hwf
  unfold wheelTotal reap_one
  simp only
  have hidx : cur_wslot tw < tw.slots.length := by
    rw [hlen]
    exact Nat.mod_lt _ hB
  have hsum := sum_set_lemma tw.slots (cur_wslot tw) [] hidx
  simp only [List.length_nil] at hsum
  simp only [List.length_append]
  omega

theorem reap_steps_wf_total (n : Nat) (tw : TimingWheel) (hwf : wheelWF tw) :
    wheelWF (reap_steps n tw) ∧
      wheelTotal (reap_steps n tw) = wheelTotal tw := by
  induction n generalizing tw with
  | zero => exact ⟨hwf, rfl⟩
  | succ m ih =>
    have h1 := reap_one_wf tw hwf
    have h2 := wheelTotal_reap_one tw hwf
    have h3 := ih (reap_one tw) h1
    exact ⟨h3.1, by rw [reap_steps, h3.2, h2]⟩

theorem reap_wf (tw : TimingWheel) (now : Nat) (hwf : wheelWF tw) :
    wheelWF (tw.reap now) :=
  (reap_steps_wf_total _ tw hwf).1

theorem wheelTotal_reap (tw : TimingWheel) (now : Nat) (hwf : wheelWF tw) :
    wheelTotal (tw.reap now) = wheelTotal tw :=
  (reap_steps_wf_total _ tw hwf).2

theorem pop_ready_wf (tw : TimingWheel) (hwf : wheelWF tw) :
    wheelWF (pop_ready tw) := by
  obtain ⟨hlen, hB, hw⟩ := hwf
  exact ⟨hlen, hB, hw⟩

theorem wheelTotal_pop_ready (tw : TimingWheel)
    (h : 0 < tw.ready_queue.length) :
    wheelTotal (pop_ready tw) + 1 = wheelTotal tw := by
  unfold wheelTotal pop_ready
  simp only [List.length_tail]
  omega

theorem send_and_pop_invariant (cycles_per_pkt : Nat) (n : Nat) :
    ∀ (tw : TimingWheel) (last_tsc : Nat), wheelWF tw →
      n ≤ tw.ready_queue.length →
      wheelWF (send_and_pop cycles_per_pkt n (tw, last_tsc)).1 ∧
      wheelTotal (send_and_pop cycles_per_pkt n (tw, last_tsc)).1 =
        wheelTotal tw ∧
      (send_and_pop cycles_per_pkt n (tw, last_tsc)).1.ready_queue.length =
        tw.ready_queue.length - n := by
  induction n with
  | zero =>
    intro tw last_tsc hwf _
    exact ⟨hwf, rfl, by simp [send_and_pop]⟩
  | succ m ih =>
    intro tw last_tsc hwf hn
    have hwf1 : wheelWF (tw.insert dummy_ent last_tsc) :=
      insert_wf tw dummy_ent last_tsc hwf
    have hwf2 : wheelWF (pop_ready (tw.insert dummy_ent last_tsc)) :=
      pop_ready_wf _ hwf1
    have hready1 : (tw.insert dummy_ent last_tsc).ready_queue.length =
        tw.ready_queue.length := by
      rw [insert_ready_queue]
    have hready2 : (pop_ready (tw.insert dummy_ent
        last_tsc)).ready_queue.length = tw.ready_queue.length - 1 := by
      simp only [pop_ready, List.length_tail]
      omega
    have hpos : 0 < (tw.insert dummy_ent last_tsc).ready_queue.length := by
      omega
    have htot : wheelTotal (pop_ready (tw.insert dummy_ent last_tsc)) =
        wheelTotal tw := by
      have h1 := wheelTotal_insert tw dummy_ent last_tsc hwf
      have h2 := wheelTotal_pop_ready (tw.insert dummy_ent last_tsc) hpos
      omega
    have hrec := ih (pop_ready (tw.insert dummy_ent last_tsc))
      (last_tsc + cycles_per_pkt) hwf2 (by omega)
    refine ⟨hrec.1, ?_, ?_⟩
    · rw [send_and_pop, hrec.2.1, htot]
    · rw [send_and_pop, hrec.2.2, hready2]
      omega

theorem send_window_invariant (cycles_per_pkt : Nat) (n : Nat) :
    ∀ (tw : TimingWheel) (last_tsc : Nat), wheelWF tw →
      wheelWF (send_window cycles_per_pkt n (tw, last_tsc)).1 ∧
      wheelTotal (send_window cycles_per_pkt n (tw, last_tsc)).1 =
        wheelTotal tw + n := by
  induction n with
  | zero =>
    intro tw last_tsc hwf
    exact ⟨hwf, rfl⟩
  | succ m ih =>
    intro tw last_tsc hwf
    have hwf1 : wheelWF (tw.insert dummy_ent last_tsc) :=
      insert_wf tw dummy_ent last_tsc hwf
    have hrec := ih (tw.insert dummy_ent last_tsc)
      (last_tsc + cycles_per_pkt) hwf1
    refine ⟨hrec.1, ?_⟩
    rw [send_window, hrec.2, wheelTotal_insert tw dummy_ent last_tsc hwf]
    omega

/-- Claim C5: the rate test's transmit loop keeps the books balanced.
Priming the window on an empty wheel deposits exactly `C`
(`kSessionCredits`) entries; each `while` iteration pops exactly the
`num_ready` entries it counted and inserts exactly as many fresh ones, so
after the iteration the number of entries in the wheel plus the ready
queue is still `C`, `num_pkts_sent` grows by exactly `num_ready`, and
`num_ready` itself never exceeds `C`. -/
theorem rate_test_credit_invariant (C cycles_per_pkt now last_tsc sent : Nat)
    (tw0 tw : TimingWheel)
    (hwf0 : wheelWF tw0) (hempty : wheelTotal tw0 = 0)
    (hwf : wheelWF tw) (htot : wheelTotal tw = C) :
    wheelTotal (send_window cycles_per_pkt C (tw0, last_tsc)).1 = C ∧
    wheelWF (rate_test_iter cycles_per_pkt now (tw, last_tsc, sent)).1 ∧
    wheelTotal (rate_test_iter cycles_per_pkt now (tw, last_tsc, sent)).1 =
      C ∧
    (tw.reap now).ready_queue.length ≤ C ∧
    (rate_test_iter cycles_per_pkt now (tw, last_tsc, sent)).2.2 =
      sent + (tw.reap now).ready_queue.length := by
  have hwin := send_window_invariant cycles_per_pkt C tw0 last_tsc hwf0
  have hreapwf := reap_wf tw now hwf
  have hreaptot := wheelTotal_reap tw now hwf
  have hready_le : (tw.reap now).ready_queue.length ≤ C := by
    have hsub : (tw.reap now).ready_queue.length ≤
        wheelTotal (tw.reap now) := by
      unfold wheelTotal
      omega
    omega
  have hiter : rate_test_iter cycles_per_pkt now (tw, last_tsc, sent) =
      if 0 < (tw.reap now).ready_queue.length then
        ((send_and_pop cycles_per_pkt (tw.reap now).ready_queue.length
            (tw.reap now, last_tsc)).1,
         (send_and_pop cycles_per_pkt (tw.reap now).ready_queue.length
            (tw.reap now, last_tsc)).2,
         sent + (tw.reap now).ready_queue.length)
      else (tw.reap now, last_tsc, sent) := rfl
  refine ⟨by omega, ?_, ?_, hready_le, ?_⟩
  · rw [hiter]
    by_cases hpos : 0 < (tw.reap now).ready_queue.length
    · rw [if_pos hpos]
      exact (send_and_pop_invariant cycles_per_pkt
        (tw.reap now).ready_queue.length (tw.reap now) last_tsc hreapwf
        (le_refl _)).1
    · rw [if_neg hpos]
      exact hreapwf
  · rw [hiter]
    by_cases hpos : 0 < (tw.reap now).ready_queue.length
    · rw [if_pos hpos]
      have := (send_and_pop_invariant cycles_per_pkt
        (tw.reap now).ready_queue.length (tw.reap now) last_tsc hreapwf
        (le_refl _)).2.1
      simp only
      omega
    · rw [if_neg hpos]
      simpa using hreaptot.trans htot
  · rw [hiter]
    by_cases hpos : 0 < (tw.reap now).ready_queue.length
    · rw [if_pos hpos]
    · rw [if_neg hpos]
      simp only
      omega

/-- Witness for C5: a concrete 4-bucket wheel of width 2, credit budget
2, packet gap 3, swept at tsc 9 after priming the window. -/
theorem rate_test_credit_invariant_witness :
    wheelTotal (rate_test_iter 3 9
        ((send_window 3 2 (emptyWheel 4 2, 0)).1, 0, 0)).1 = 2 ∧
    ((send_window 3 2 (emptyWheel 4 2, 0)).1.reap 9).ready_queue.length ≤
      2 := by
  have h := rate_test_credit_invariant 2 3 9 0 0 (emptyWheel 4 2)
    (send_window 3 2 (emptyWheel 4 2, 0)).1
    (by unfold wheelWF emptyWheel
        refine ⟨by simp, by decide, by decide⟩)
    (by decide)
    (by unfold wheelWF
        refine ⟨by decide, by decide, by decide⟩)
    (by decide)
  exact ⟨h.2.2.1, h.2.2.2.1⟩

end ERpc
